import Mathlib

/-!
Shallow embedding of the Secure_Drone (AEGIS) gateway, verified against its
natural-language specification.  Each definition is a direct translation of a
Python function from the repository; theorems settle the frozen claims.

Conventions: Python floats are modelled as rationals (ℚ); Python `round(x, 2)`
is banker's rounding to two decimals; byte strings are lists of naturals;
`time.time()` is passed in as an explicit `now` argument; global mutable state
becomes explicit state records threaded through the functions.
-/

/-! ### Python `round` (round-half-even) over ℚ -/

/-- Round-half-even of a rational to an integer, as Python's builtin `round`
performs on its (exact) argument. -/
def rhe (q : ℚ) : ℤ :=
  if q - ⌊q⌋ < 1/2 then ⌊q⌋
  else if (1:ℚ)/2 < q - ⌊q⌋ then ⌊q⌋ + 1
  else if ⌊q⌋ % 2 = 0 then ⌊q⌋ else ⌊q⌋ + 1

/-- Python `round(q, 2)`: round-half-even to two decimal places. -/
def round2 (q : ℚ) : ℚ := (rhe (q * 100) : ℚ) / 100

/-! ### Decision engine (`companion_comp/decision_engine/risk_aggregator.py`)

`RiskProportionalDecisionEngine` with its default configuration: thresholds
`ml_confidence_threshold = 0.6`, weights crypto 0.25 / intent 0.15 /
behavior 0.2 / trajectory 0.2 / ml_intent 0.2, `use_ml_intent = True`. -/

/-- `DecisionState` enum: the four-state decision model. -/
inductive DecisionState
  | ACCEPT
  | CONSTRAIN
  | HOLD
  | RTL
deriving DecidableEq, Repr

/-- `Severity` enum: risk severity levels. -/
inductive Severity
  | NONE
  | LOW
  | MEDIUM
  | HIGH
  | CRITICAL
deriving DecidableEq, Repr

/-- Rule-based intent layer output, as consumed by the decision engine. -/
structure IntentResult where
  intent_match : Bool
  confidence : ℚ
  reason : String
deriving DecidableEq, Repr

/-- Behavior / temporal anomaly layer output. -/
structure BehaviorResult where
  behavior_score : ℚ
  anomaly_level : String
  anomaly_features : List String
  explanation : String
deriving DecidableEq, Repr

/-- `shadow_result.predicted_outcomes` flags. -/
structure PredictedOutcomes where
  geofence_violation : Bool
  velocity_risk : Bool
  altitude_risk : Bool
  time_to_violation : ℚ
deriving DecidableEq, Repr

/-- Shadow-execution layer output. -/
structure ShadowResult where
  trajectory_risk : ℚ
  predicted_outcomes : PredictedOutcomes
  explanation : String
deriving DecidableEq, Repr

/-- ML intent-inference layer output (advisory). -/
structure MLIntentResult where
  intent : String
  confidence : ℚ
  intent_risk : ℚ
  top_features : List String
deriving DecidableEq, Repr

/-- `ml_confidence_threshold` default from the engine's config. -/
def ml_confidence_threshold : ℚ := 0.6

/-- Risk component 2 of `aggregate_risk`: rule-based intent risk, boosted to at
least 0.6 when the rule layer's confidence is low. -/
def intentRiskComponent (intent_result : IntentResult) : ℚ :=
  let intent_risk : ℚ := if intent_result.intent_match then 0.0 else 0.8
  if intent_result.confidence < 0.6 then max intent_risk 0.6 else intent_risk

/-- Risk component 5 of `aggregate_risk`: ML intent risk, used only when ML is
present and confident, otherwise the neutral/conservative 0.5. -/
def mlRiskComponent (ml_intent_result : Option MLIntentResult) : ℚ :=
  match ml_intent_result with
  | some m => if ml_confidence_threshold ≤ m.confidence then m.intent_risk else 0.5
  | none => 0.5

/-- Weighted aggregation step of `aggregate_risk` (before emergency overrides). -/
def weightedRisk (crypto_valid : Bool) (intent_result : IntentResult)
    (behavior_result : BehaviorResult) (shadow_result : ShadowResult)
    (ml_intent_result : Option MLIntentResult) : ℚ :=
  0.25 * (if crypto_valid then 0.0 else 1.0) +
  0.15 * intentRiskComponent intent_result +
  0.2 * behavior_result.behavior_score +
  0.2 * shadow_result.trajectory_risk +
  0.2 * mlRiskComponent ml_intent_result

/-- Emergency-override condition for the ML layer: confident, high-risk intent. -/
def mlHighRiskFlag (ml_intent_result : Option MLIntentResult) : Bool :=
  match ml_intent_result with
  | some m => decide (ml_confidence_threshold ≤ m.confidence) && decide ((0.8:ℚ) < m.intent_risk)
  | none => false

/-- Emergency override 1: predicted geofence violation floors the risk at 0.85. -/
def applyGeofenceFloor (shadow_result : ShadowResult) (t : ℚ) : ℚ :=
  if shadow_result.predicted_outcomes.geofence_violation then max t 0.85 else t

/-- Emergency override 2: a HIGH behavior anomaly floors the risk at 0.75. -/
def applyBehaviorFloor (behavior_result : BehaviorResult) (t : ℚ) : ℚ :=
  if behavior_result.anomaly_level = "HIGH" then max t 0.75 else t

/-- Emergency override 3: invalid crypto floors the risk at 0.7. -/
def applyCryptoFloor (crypto_valid : Bool) (t : ℚ) : ℚ :=
  if crypto_valid then t else max t 0.7

/-- Emergency override 4: confident high-risk ML intent floors the risk at 0.75. -/
def applyMLFloor (ml_intent_result : Option MLIntentResult) (t : ℚ) : ℚ :=
  if mlHighRiskFlag ml_intent_result then max t 0.75 else t

/-- The four emergency-override floors of `aggregate_risk`, applied in source
order to the weighted total `t`. -/
def applyOverrides (crypto_valid : Bool) (behavior_result : BehaviorResult)
    (shadow_result : ShadowResult) (ml_intent_result : Option MLIntentResult)
    (t : ℚ) : ℚ :=
  applyMLFloor ml_intent_result
    (applyCryptoFloor crypto_valid
      (applyBehaviorFloor behavior_result
        (applyGeofenceFloor shadow_result t)))

/-- `RiskProportionalDecisionEngine.aggregate_risk` at default config:
weighted sum, emergency floors, clamp to 1.0, rounding to two decimals. -/
def aggregate_risk (crypto_valid : Bool) (intent_result : IntentResult)
    (behavior_result : BehaviorResult) (shadow_result : ShadowResult)
    (ml_intent_result : Option MLIntentResult) : ℚ :=
  round2 (min 1.0 (applyOverrides crypto_valid behavior_result shadow_result
    ml_intent_result
    (weightedRisk crypto_valid intent_result behavior_result shadow_result ml_intent_result)))

/-- `RiskProportionalDecisionEngine.determine_severity`. -/
def determine_severity (risk : ℚ) : Severity :=
  if risk < 0.3 then Severity.NONE
  else if risk < 0.5 then Severity.LOW
  else if risk < 0.7 then Severity.MEDIUM
  else if risk < 0.9 then Severity.HIGH
  else Severity.CRITICAL

/-- `RiskProportionalDecisionEngine._make_decision`, decision-state part: the
returned state depends only on the severity argument (the other arguments
shape only the explanation text). -/
def make_decision_state (severity : Severity) : DecisionState :=
  if severity = Severity.CRITICAL then DecisionState.RTL
  else if severity = Severity.HIGH then DecisionState.HOLD
  else if severity = Severity.MEDIUM then DecisionState.CONSTRAIN
  else DecisionState.ACCEPT

/-- `RiskProportionalDecisionEngine._calculate_confidence`. -/
def calculate_confidence (intent_conf : ℚ) (behavior_score : ℚ)
    (crypto_valid : Bool) (ml_confidence : Option ℚ) : ℚ :=
  let confidence : ℚ := 0.9
  let confidence := if intent_conf < 0.6 then confidence - 0.2 else confidence
  let confidence :=
    if 0.4 < behavior_score ∧ behavior_score < 0.6 then confidence - 0.1 else confidence
  let confidence := if crypto_valid then confidence else confidence - 0.15
  let confidence :=
    match ml_confidence with
    | some c => if c < 0.5 then confidence - 0.1
                else if 0.85 < c then confidence + 0.05
                else confidence
    | none => confidence
  max 0.5 (round2 confidence)

/-- `DecisionResult` as produced by `decide` (explanation text omitted). -/
structure DecisionResult where
  decision : DecisionState
  severity : Severity
  confidence : ℚ
deriving DecidableEq, Repr

/-- `RiskProportionalDecisionEngine.decide`: aggregate risk, bucket into a
severity, map the severity to a decision state, compute confidence. -/
def engineDecide (crypto_valid : Bool) (intent_result : IntentResult)
    (behavior_result : BehaviorResult) (shadow_result : ShadowResult)
    (ml_intent_result : Option MLIntentResult) : DecisionResult :=
  let total_risk := aggregate_risk crypto_valid intent_result behavior_result
    shadow_result ml_intent_result
  let severity := determine_severity total_risk
  { decision := make_decision_state severity
    severity := severity
    confidence := calculate_confidence intent_result.confidence
      behavior_result.behavior_score crypto_valid
      (ml_intent_result.map (fun m => m.confidence)) }

/-! ### AEGIS proxy (`companion_comp/aegis_proxy.py`)

`classify_sender`, `authorize_message` and the per-datagram loop of
`process_message`.  A datagram is its parsed MAVLink message list (parsing by
`pymavlink` is external; the message type tag is what the gateway consumes)
plus the transport source address.  The AI validation step of STEP 5 is
abstracted by a predicate `aiAllows` standing for
`intent_firewall.analyze(msg).allowed`. -/

/-- `AEGISProxy.classify_sender`: identity from the source IP alone. -/
def classify_sender (trusted_gcs_ip : String) (src_ip : String) : String :=
  if src_ip = trusted_gcs_ip then "GCS" else "UNTRUSTED"

/-- The proxy's `BLOCKED_COMMANDS` list. -/
def BLOCKED_COMMANDS : List String :=
  ["COMMAND_LONG", "COMMAND_INT", "SET_MODE", "MISSION_ITEM", "MISSION_ITEM_INT",
   "MISSION_COUNT", "MISSION_CLEAR_ALL", "MISSION_SET_CURRENT",
   "SET_POSITION_TARGET_LOCAL_NED", "SET_POSITION_TARGET_GLOBAL_INT",
   "SET_ATTITUDE_TARGET"]

/-- `AEGISProxy.authorize_message`: `(should_process, block_reason)`. -/
def authorize_message (msg_type : String) (sender_type : String) (src_ip : String) :
    Bool × Option String :=
  if sender_type = "GCS" then (true, none)
  else if msg_type ∈ BLOCKED_COMMANDS then
    (false, some ("SECURITY: Command " ++ msg_type ++ " from UNTRUSTED source " ++ src_ip))
  else (false, none)

/-- Observable outcome of `process_message` on one datagram: the return value,
the number of security-event records logged (the warning block guarded by
`block_reason`), the number of silent drops, and the message types that
reached the detector stage (STEP 5). -/
structure ProcessOutcome where
  forward : Bool
  security_events : Nat
  silent_drops : Nat
  admitted : List String
deriving DecidableEq, Repr

/-- Loop body of `process_message` STEP 4–5 over the parsed messages. -/
def processLoop (sender_type src_ip : String) (ai_enabled : Bool)
    (aiAllows : String → Bool) : List String → Bool → Nat → Nat → List String → ProcessOutcome
  | [], all_forwarded, ev, dr, adm =>
    { forward := all_forwarded, security_events := ev, silent_drops := dr, admitted := adm }
  | msg_type :: rest, all_forwarded, ev, dr, adm =>
    match authorize_message msg_type sender_type src_ip with
    | (false, some _) => processLoop sender_type src_ip ai_enabled aiAllows rest false (ev + 1) dr adm
    | (false, none) => processLoop sender_type src_ip ai_enabled aiAllows rest false ev (dr + 1) adm
    | (true, _) =>
      if ai_enabled ∧ ¬ aiAllows msg_type then
        processLoop sender_type src_ip ai_enabled aiAllows rest false ev dr (adm ++ [msg_type])
      else
        processLoop sender_type src_ip ai_enabled aiAllows rest all_forwarded ev dr (adm ++ [msg_type])

/-- `AEGISProxy.process_message`: classify the sender from the source IP,
authorize each parsed message, run the optional AI step, and report whether
the datagram is forwarded. An empty parse yields `False` with a silent drop. -/
def process_message (trusted_gcs_ip : String) (src_ip : String) (ai_enabled : Bool)
    (aiAllows : String → Bool) (messages : List String) : ProcessOutcome :=
  let sender_type := classify_sender trusted_gcs_ip src_ip
  match messages with
  | [] => { forward := false, security_events := 0, silent_drops := 1, admitted := [] }
  | _ => processLoop sender_type src_ip ai_enabled aiAllows messages true 0 0 []

/-! ### Replay detector (`src/ai_layer/attack_detection/replay_detector.py`)

Nonces and payload hashes are naturals; timestamps rationals; `time.time()`
is the explicit `now` argument of `check_command`.  The Python `set` of seen
nonces is a duplicate-free list; the bounded deques keep their FIFO
semantics (maxlen drops the leftmost element on overflow). -/

/-- Constructor parameters of `ReplayDetector`. -/
structure RDConfig where
  nonce_window_size : Nat
  timestamp_tolerance : ℚ
  sequence_window_size : Nat
deriving DecidableEq, Repr

/-- `ReplayDetector(...)` defaults: window 10000, tolerance 30 s, history 50. -/
def defaultRDConfig : RDConfig :=
  { nonce_window_size := 10000, timestamp_tolerance := 30, sequence_window_size := 50 }

/-- Mutable state of a `ReplayDetector` (statistics counters omitted: they feed
only `get_statistics`). -/
structure RDState where
  seen_nonces : List Nat
  nonce_queue : List Nat
  last_valid_timestamp : ℚ
  command_history : List (Nat × ℚ)
deriving DecidableEq, Repr

/-- Fresh detector state (`__init__` / `reset`). -/
def initialRDState : RDState :=
  { seen_nonces := [], nonce_queue := [], last_valid_timestamp := 0, command_history := [] }

/-- `ReplayMetrics` dataclass (explanation text omitted). -/
structure ReplayMetrics where
  is_replay : Bool
  confidence : ℚ
  detection_method : String
  nonce_duplicate : Bool
  timestamp_anomaly : Bool
  sequence_anomaly : Bool
deriving DecidableEq, Repr

/-- `ReplayDetector._check_nonce`. -/
def rdCheckNonce (s : RDState) (nonce : Nat) : Bool :=
  nonce ∈ s.seen_nonces

/-- `ReplayDetector._check_timestamp` (anomaly flag). -/
def rdCheckTimestamp (cfg : RDConfig) (s : RDState) (now timestamp : ℚ) : Bool :=
  if timestamp < now - cfg.timestamp_tolerance then true
  else if now + cfg.timestamp_tolerance < timestamp then true
  else if timestamp < s.last_valid_timestamp - 5 then true
  else false

/-- `ReplayDetector._check_sequence` (anomaly flag): a duplicate payload hash
within the recent 5 s window. -/
def rdCheckSequence (s : RDState) (command_hash : Option Nat) (timestamp : ℚ) : Bool :=
  match command_hash with
  | none => false
  | some h => s.command_history.any (fun p => p.1 == h && decide (|timestamp - p.2| < 5))

/-- `ReplayDetector._aggregate_detection`: `(is_replay, confidence, method)`. -/
def rdAggregateDetection (nonce_dup timestamp_anomaly sequence_anomaly : Bool) :
    Bool × ℚ × String :=
  if nonce_dup then (true, 1.0, "nonce_duplicate")
  else if timestamp_anomaly then
    if sequence_anomaly then (true, 0.95, "timestamp_sequence")
    else (true, 0.85, "timestamp")
  else if sequence_anomaly then (true, 0.70, "sequence")
  else (false, 0.0, "none")

/-- A deque of maxlen `n` after an append: drop from the left down to `n`. -/
def dequeFit (n : Nat) (l : List Nat) : List Nat := l.drop (l.length - n)

/-- Same for the `(hash, timestamp)` history deque. -/
def dequeFitH (n : Nat) (l : List (Nat × ℚ)) : List (Nat × ℚ) := l.drop (l.length - n)

/-- Python `set.add` on the duplicate-free list model. -/
def setAdd (l : List Nat) (x : Nat) : List Nat := if x ∈ l then l else l ++ [x]

/-- `ReplayDetector._update_tracking`: record nonce (evicting the oldest from
the seen-set at capacity), raise the max accepted timestamp, append the hash. -/
def rdUpdateTracking (cfg : RDConfig) (s : RDState) (nonce : Nat) (timestamp : ℚ)
    (command_hash : Option Nat) : RDState :=
  let seen :=
    if cfg.nonce_window_size ≤ s.nonce_queue.length then
      match s.nonce_queue with
      | [] => s.seen_nonces
      | old :: _ => s.seen_nonces.erase old
    else s.seen_nonces
  { seen_nonces := setAdd seen nonce
    nonce_queue := dequeFit cfg.nonce_window_size (s.nonce_queue ++ [nonce])
    last_valid_timestamp := max s.last_valid_timestamp timestamp
    command_history :=
      match command_hash with
      | some h => dequeFitH cfg.sequence_window_size (s.command_history ++ [(h, timestamp)])
      | none => s.command_history }

/-- `ReplayDetector.check_command` (with `command_hash` given directly; the
`payload` branch only hashes the payload into `command_hash`). -/
def check_command (cfg : RDConfig) (s : RDState) (now : ℚ) (nonce : Nat)
    (timestamp : ℚ) (command_hash : Option Nat) : ReplayMetrics × RDState :=
  let nonce_duplicate := rdCheckNonce s nonce
  let timestamp_anomaly := rdCheckTimestamp cfg s now timestamp
  let sequence_anomaly := rdCheckSequence s command_hash timestamp
  let agg := rdAggregateDetection nonce_duplicate timestamp_anomaly sequence_anomaly
  let s' := if agg.1 then s else rdUpdateTracking cfg s nonce timestamp command_hash
  ({ is_replay := agg.1
     confidence := agg.2.1
     detection_method := agg.2.2
     nonce_duplicate := nonce_duplicate
     timestamp_anomaly := timestamp_anomaly
     sequence_anomaly := sequence_anomaly }, s')

/-- One call to `check_command`, as data. -/
structure RDCall where
  now : ℚ
  nonce : Nat
  timestamp : ℚ
  command_hash : Option Nat
deriving DecidableEq, Repr

/-- State after one `check_command` call. -/
def rdStep (cfg : RDConfig) (s : RDState) (c : RDCall) : RDState :=
  (check_command cfg s c.now c.nonce c.timestamp c.command_hash).2

/-- State after a sequence of `check_command` calls. -/
def rdRun (cfg : RDConfig) (s : RDState) (calls : List RDCall) : RDState :=
  calls.foldl (rdStep cfg) s

/-- Number of calls in the sequence that the detector accepts (returns clean
and records). -/
def rdAcceptedCount (cfg : RDConfig) (s : RDState) : List RDCall → Nat
  | [] => 0
  | c :: rest =>
    let m := (check_command cfg s c.now c.nonce c.timestamp c.command_hash).1
    (if m.is_replay then 0 else 1) + rdAcceptedCount cfg (rdStep cfg s c) rest

/-! ### Crypto decryptor (`src/crypto_layer/decryptor.py`) and nonce manager

`decrypt_payload` threads the module-global `last_seen_counter` and the key
manager's session risk level / command counter as explicit state.  The AES-GCM
primitive and the session-key lookup are external effects: they are abstracted
by the call's `key_fetch` outcome (`get_active_session_key` succeeding or
raising) and `gcm_plain` (`AESGCM.decrypt` returning a plaintext or raising a
tag failure).  A replay rejection returns before either is consulted. -/

/-- Big-endian integer of a byte list (`struct.unpack` of `">Q"`). -/
def beBytesToNat (bs : List Nat) : Nat :=
  bs.foldl (fun acc b => acc * 256 + b % 256) 0

/-- `NonceManager.extract_counter`: the trailing 8 bytes of the nonce, read as
a big-endian 64-bit counter. -/
def extract_counter (nonce : List Nat) : Nat :=
  beBytesToNat (nonce.drop (nonce.length - 8))

/-- State threaded through `decrypt_payload`: the global `last_seen_counter`
plus the key-manager fields it mutates. -/
structure CryptoState where
  last_seen_counter : Nat
  risk_level : String
  command_count : Nat
deriving DecidableEq, Repr

/-- Failure modes of `decrypt_payload`. -/
inductive DecryptErr
  | replay
  | keyFailure
  | tagMismatch
deriving DecidableEq, Repr

/-- `decrypt_payload`: replay check on the nonce counter, then session-key
fetch, then AES-GCM; the counter advances only after a successful decrypt. -/
def decrypt_payload (st : CryptoState) (nonce : List Nat)
    (key_fetch : Bool) (gcm_plain : Option (List Nat)) :
    Except DecryptErr (List Nat) × CryptoState :=
  let counter := extract_counter nonce
  if counter ≤ st.last_seen_counter then
    (Except.error DecryptErr.replay, { st with risk_level := "high" })
  else if key_fetch = false then
    (Except.error DecryptErr.keyFailure, st)
  else
    match gcm_plain with
    | none => (Except.error DecryptErr.tagMismatch, st)
    | some plaintext =>
      (Except.ok plaintext,
       { st with last_seen_counter := counter, command_count := st.command_count + 1 })

/-! ### Key manager (`companion_comp/crypto_layer/key_manager.py`)

Session-key lifecycle state machine.  `_metadata["session"]` holds the current
key's metadata record; derivation overwrites that slot with a fresh record.
To speak about "the same key" over time, the model keeps every record ever
created: `history` are the displaced records (oldest first) and `current` is
the record in the metadata slot.  Key i is position i in
`history ++ [current]`; that position is stable across all operations. -/

/-- `KeyState` enum. -/
inductive KMKeyState
  | active
  | grace
  | expired
  | revoked
deriving DecidableEq, Repr

/-- `KeyMetadata` for a session key (`key_type` is always SESSION here). -/
structure SessionMeta where
  session_id : String
  state : KMKeyState
  created_at : ℚ
  expires_at : ℚ
  command_count : Nat
  last_rotation : ℚ
  risk_level : String
deriving DecidableEq, Repr

/-- `SESSION_KEY_LIFETIME = 30 * 60`. -/
def SESSION_KEY_LIFETIME : ℚ := 30 * 60

/-- `GRACE_PERIOD = 5 * 60`. -/
def GRACE_PERIOD : ℚ := 5 * 60

/-- Key-manager state restricted to session-key metadata records. -/
structure KMState where
  history : List SessionMeta
  current : Option SessionMeta
deriving DecidableEq, Repr

/-- All session-key records ever created, oldest first. -/
def kmRecords (st : KMState) : List SessionMeta :=
  st.history ++ (match st.current with | some c => [c] | none => [])

/-- The recorded state of key `k` (position in creation order). -/
def recordedState (st : KMState) (k : Nat) : Option KMKeyState :=
  (kmRecords st)[k]?.map (fun m => m.state)

/-- Fresh metadata installed by `KeyManager._derive_session_key`: the new
session key starts `active`. -/
def freshSessionMeta (now : ℚ) (session_id : String) : SessionMeta :=
  { session_id := session_id
    state := KMKeyState.active
    created_at := now
    expires_at := now + SESSION_KEY_LIFETIME
    command_count := 0
    last_rotation := 0
    risk_level := "low" }

/-- `KeyManager._derive_session_key`: overwrite the metadata slot with a fresh
`active` record (the displaced record moves to the history). -/
def kmDerive (now : ℚ) (session_id : String) (st : KMState) : KMState :=
  { history := st.history ++ (match st.current with | some c => [c] | none => [])
    current := some (freshSessionMeta now session_id) }

/-- `KeyManager.rotate_session_key`: put the current key into its grace
period, then derive a fresh key and stamp its `last_rotation`. -/
def kmRotate (now : ℚ) (session_id : String) (st : KMState) : KMState :=
  let st1 : KMState :=
    { st with current := st.current.map (fun m =>
        { m with state := KMKeyState.grace, expires_at := now + GRACE_PERIOD }) }
  let st2 := kmDerive now session_id st1
  { st2 with current := st2.current.map (fun m => { m with last_rotation := now }) }

/-- `KeyManager.revoke_session_key`: mark the current key `revoked`. -/
def kmRevoke (st : KMState) : KMState :=
  { st with current := st.current.map (fun m => { m with state := KMKeyState.revoked }) }

/-- `KeyManager.update_risk_level`. -/
def kmUpdateRisk (lvl : String) (st : KMState) : KMState :=
  { st with current := st.current.map (fun m => { m with risk_level := lvl }) }

/-- `KeyManager.increment_command_counter`. -/
def kmIncrement (st : KMState) : KMState :=
  { st with current := st.current.map (fun m => { m with command_count := m.command_count + 1 }) }

/-- The key-manager operations that touch session-key metadata. -/
inductive KMOp
  | rotate (now : ℚ) (session_id : String)
  | revoke
  | derive (now : ℚ) (session_id : String)
  | updateRisk (lvl : String)
  | incrementCounter
deriving DecidableEq, Repr

/-- One key-manager operation. -/
def kmStep (op : KMOp) (st : KMState) : KMState :=
  match op with
  | KMOp.rotate now sid => kmRotate now sid st
  | KMOp.revoke => kmRevoke st
  | KMOp.derive now sid => kmDerive now sid st
  | KMOp.updateRisk lvl => kmUpdateRisk lvl st
  | KMOp.incrementCounter => kmIncrement st

/-! ### Concrete instances used by counterexamples and witnesses -/

/-- Detector state after one accepted frame (nonce 1, timestamp 965, payload
hash 7, checked at wall-clock 990). -/
def c4PriorState : RDState :=
  (check_command defaultRDConfig initialRDState 990 1 965 (some 7)).2

/-- A `ReplayDetector(nonce_window_size=2)` configuration (the window capacity
is a constructor parameter). -/
def rdCfgSmall : RDConfig :=
  { nonce_window_size := 2, timestamp_tolerance := 30, sequence_window_size := 50 }

/-- Small-window run: after accepting nonce 1. -/
def c5StateA : RDState := (check_command rdCfgSmall initialRDState 10 1 10 none).2

/-- Small-window run: after accepting nonces 1, 2. -/
def c5StateB : RDState := (check_command rdCfgSmall c5StateA 11 2 11 none).2

/-- Small-window run: after accepting nonces 1, 2, 3 (evicting nonce 1). -/
def c5StateC : RDState := (check_command rdCfgSmall c5StateB 12 3 12 none).2

/-- A key-manager state holding one freshly derived (active) session key. -/
def km0 : KMState := { history := [], current := some (freshSessionMeta 0 "session-0") }

/-- A received datagram as seen by `process_message`: transport source
address plus the parsed MAVLink payload (message-type tags and, abstractly,
any in-band fields the parser surfaced). -/
structure Datagram where
  src_ip : String
  src_port : Nat
  messages : List String
deriving DecidableEq, Repr

/-- STEP 2 of `process_message`: the sender classification actually used for
a datagram; computed from the transport source address only. -/
def datagramSenderType (trusted_gcs_ip : String) (d : Datagram) : String :=
  classify_sender trusted_gcs_ip d.src_ip

/-- Well-formedness of a detector state: the seen-nonce set and the FIFO queue
hold the same nonces without duplicates, within the window capacity.  Holds
for the fresh state and is preserved by every call. -/
def RDWF (cfg : RDConfig) (s : RDState) : Prop :=
  s.nonce_queue.Nodup ∧ s.seen_nonces.Nodup ∧
  (∀ x, x ∈ s.seen_nonces ↔ x ∈ s.nonce_queue) ∧
  s.nonce_queue.length ≤ cfg.nonce_window_size

/-! ## Helper lemmas -/

theorem rhe_le_add_one (q : ℚ) : rhe q ≤ ⌊q⌋ + 1 := by
  unfold rhe
  split_ifs <;> omega

theorem le_rhe (q : ℚ) : ⌊q⌋ ≤ rhe q := by
  unfold rhe
  split_ifs <;> omega

theorem rhe_mono {x y : ℚ} (h : x ≤ y) : rhe x ≤ rhe y := by
  rcases lt_or_eq_of_le (Int.floor_le_floor h) with hf | hf
  · calc rhe x ≤ ⌊x⌋ + 1 := rhe_le_add_one x
    _ ≤ ⌊y⌋ := by omega
    _ ≤ rhe y := le_rhe y
  · unfold rhe
    rw [hf]
    split_ifs <;> first | omega | linarith

theorem round2_mono {x y : ℚ} (h : x ≤ y) : round2 x ≤ round2 y := by
  unfold round2
  have : rhe (x * 100) ≤ rhe (y * 100) := rhe_mono (by linarith)
  have h100 : ((rhe (x * 100) : ℚ)) ≤ ((rhe (y * 100) : ℚ)) := by exact_mod_cast this
  linarith


theorem rhe_intCast (n : ℤ) : rhe (n : ℚ) = n := by
  simp [rhe]

theorem round2_eq_self (n : ℤ) {q : ℚ} (h : q * 100 = (n : ℚ)) : round2 q = q := by
  unfold round2
  rw [h, rhe_intCast]
  have : q = (n : ℚ) / 100 := by linarith
  rw [this]

theorem round2_le_of_le {x : ℚ} (h : x ≤ 0.95) : round2 x ≤ 0.95 := by
  have h2 : round2 0.95 = 0.95 := round2_eq_self 95 (by norm_num)
  have h1 : round2 x ≤ round2 0.95 := round2_mono h
  rw [h2] at h1
  exact h1

theorem determine_severity_buckets (r : ℚ) :
    (r < 0.3 → determine_severity r = Severity.NONE) ∧
    (0.3 ≤ r → r < 0.5 → determine_severity r = Severity.LOW) ∧
    (0.5 ≤ r → r < 0.7 → determine_severity r = Severity.MEDIUM) ∧
    (0.7 ≤ r → r < 0.9 → determine_severity r = Severity.HIGH) ∧
    (0.9 ≤ r → determine_severity r = Severity.CRITICAL) := by
  unfold determine_severity
  refine ⟨fun h => ?_, fun h1 h2 => ?_, fun h1 h2 => ?_, fun h1 h2 => ?_, fun h => ?_⟩ <;>
    split_ifs <;> first | rfl | linarith

/-- C2: the decision engine maps total risk to severity by the buckets
risk<0.3 ⇒ none, [0.3,0.5) ⇒ low, [0.5,0.7) ⇒ medium, [0.7,0.9) ⇒ high,
risk≥0.9 ⇒ critical, and for every input combination `decide` returns RTL
when the severity is critical, HOLD when high, CONSTRAIN when medium, and
ACCEPT when low or none. -/
theorem C2_severity_buckets_and_state_map (crypto_valid : Bool)
    (intent_result : IntentResult) (behavior_result : BehaviorResult)
    (shadow_result : ShadowResult) (ml_intent_result : Option MLIntentResult) :
    ((aggregate_risk crypto_valid intent_result behavior_result shadow_result ml_intent_result < 0.3 →
       (engineDecide crypto_valid intent_result behavior_result shadow_result ml_intent_result).severity = Severity.NONE) ∧
     (0.3 ≤ aggregate_risk crypto_valid intent_result behavior_result shadow_result ml_intent_result →
       aggregate_risk crypto_valid intent_result behavior_result shadow_result ml_intent_result < 0.5 →
       (engineDecide crypto_valid intent_result behavior_result shadow_result ml_intent_result).severity = Severity.LOW) ∧
     (0.5 ≤ aggregate_risk crypto_valid intent_result behavior_result shadow_result ml_intent_result →
       aggregate_risk crypto_valid intent_result behavior_result shadow_result ml_intent_result < 0.7 →
       (engineDecide crypto_valid intent_result behavior_result shadow_result ml_intent_result).severity = Severity.MEDIUM) ∧
     (0.7 ≤ aggregate_risk crypto_valid intent_result behavior_result shadow_result ml_intent_result →
       aggregate_risk crypto_valid intent_result behavior_result shadow_result ml_intent_result < 0.9 →
       (engineDecide crypto_valid intent_result behavior_result shadow_result ml_intent_result).severity = Severity.HIGH) ∧
     (0.9 ≤ aggregate_risk crypto_valid intent_result behavior_result shadow_result ml_intent_result →
       (engineDecide crypto_valid intent_result behavior_result shadow_result ml_intent_result).severity = Severity.CRITICAL)) ∧
    (((engineDecide crypto_valid intent_result behavior_result shadow_result ml_intent_result).severity = Severity.CRITICAL →
       (engineDecide crypto_valid intent_result behavior_result shadow_result ml_intent_result).decision = DecisionState.RTL) ∧
     ((engineDecide crypto_valid intent_result behavior_result shadow_result ml_intent_result).severity = Severity.HIGH →
       (engineDecide crypto_valid intent_result behavior_result shadow_result ml_intent_result).decision = DecisionState.HOLD) ∧
     ((engineDecide crypto_valid intent_result behavior_result shadow_result ml_intent_result).severity = Severity.MEDIUM →
       (engineDecide crypto_valid intent_result behavior_result shadow_result ml_intent_result).decision = DecisionState.CONSTRAIN) ∧
     ((engineDecide crypto_valid intent_result behavior_result shadow_result ml_intent_result).severity = Severity.LOW ∨
      (engineDecide crypto_valid intent_result behavior_result shadow_result ml_intent_result).severity = Severity.NONE →
       (engineDecide crypto_valid intent_result behavior_result shadow_result ml_intent_result).decision = DecisionState.ACCEPT)) := by
  have hsev : (engineDecide crypto_valid intent_result behavior_result shadow_result ml_intent_result).severity =
      determine_severity (aggregate_risk crypto_valid intent_result behavior_result shadow_result ml_intent_result) := rfl
  have hdec : (engineDecide crypto_valid intent_result behavior_result shadow_result ml_intent_result).decision =
      make_decision_state ((engineDecide crypto_valid intent_result behavior_result shadow_result ml_intent_result).severity) := rfl
  constructor
  · rw [hsev]
    exact determine_severity_buckets _
  · rw [hdec]
    refine ⟨fun h => by rw [h]; rfl, fun h => by rw [h]; rfl, fun h => by rw [h]; rfl, fun h => ?_⟩
    rcases h with h | h <;> (rw [h]; rfl)

/-- Witness for C2 at a concrete input: invalid crypto, mismatched low-confidence
intent, HIGH anomaly, geofence violation and confident high-risk ML yield
total risk 0.96, a critical severity and an RTL decision. -/
theorem C2_severity_buckets_and_state_map_witness :
    (engineDecide false { intent_match := false, confidence := 0.2, reason := "" }
      { behavior_score := 1, anomaly_level := "HIGH", anomaly_features := [], explanation := "" }
      { trajectory_risk := 1,
        predicted_outcomes := { geofence_violation := true, velocity_risk := false,
                                altitude_risk := false, time_to_violation := 2 },
        explanation := "" }
      (some { intent := "exfil", confidence := 0.9, intent_risk := 0.95, top_features := [] })).decision = DecisionState.RTL := by
  have hval : aggregate_risk false { intent_match := false, confidence := 0.2, reason := "" }
      { behavior_score := 1, anomaly_level := "HIGH", anomaly_features := [], explanation := "" }
      { trajectory_risk := 1,
        predicted_outcomes := { geofence_violation := true, velocity_risk := false,
                                altitude_risk := false, time_to_violation := 2 },
        explanation := "" }
      (some { intent := "exfil", confidence := 0.9, intent_risk := 0.95, top_features := [] }) = 0.96 := by
    unfold aggregate_risk
    have h1 : min (1.0:ℚ) (applyOverrides false
        { behavior_score := 1, anomaly_level := "HIGH", anomaly_features := [], explanation := "" }
        { trajectory_risk := 1,
          predicted_outcomes := { geofence_violation := true, velocity_risk := false,
                                  altitude_risk := false, time_to_violation := 2 },
          explanation := "" }
        (some { intent := "exfil", confidence := 0.9, intent_risk := 0.95, top_features := [] })
        (weightedRisk false { intent_match := false, confidence := 0.2, reason := "" }
          { behavior_score := 1, anomaly_level := "HIGH", anomaly_features := [], explanation := "" }
          { trajectory_risk := 1,
            predicted_outcomes := { geofence_violation := true, velocity_risk := false,
                                    altitude_risk := false, time_to_violation := 2 },
            explanation := "" }
          (some { intent := "exfil", confidence := 0.9, intent_risk := 0.95, top_features := [] }))) = 0.96 := by
      norm_num [applyOverrides, applyGeofenceFloor, applyBehaviorFloor, applyCryptoFloor,
        applyMLFloor, mlHighRiskFlag, weightedRisk, intentRiskComponent, mlRiskComponent,
        ml_confidence_threshold, max_def, min_def]
    rw [h1]
    exact round2_eq_self 96 (by norm_num)
  have h9 : (0.9:ℚ) ≤ aggregate_risk false { intent_match := false, confidence := 0.2, reason := "" }
      { behavior_score := 1, anomaly_level := "HIGH", anomaly_features := [], explanation := "" }
      { trajectory_risk := 1,
        predicted_outcomes := { geofence_violation := true, velocity_risk := false,
                                altitude_risk := false, time_to_violation := 2 },
        explanation := "" }
      (some { intent := "exfil", confidence := 0.9, intent_risk := 0.95, top_features := [] }) := by
    rw [hval]
    norm_num
  exact (C2_severity_buckets_and_state_map false _ _ _ _).2.1
    ((C2_severity_buckets_and_state_map false _ _ _ _).1.2.2.2.2 h9)

/-- C10: for every combination of inputs, the decision confidence computed by
`_calculate_confidence` lies in [0.5, 0.95]: floored at 0.5, and starting
from 0.9 with at most one +0.05 boost it never exceeds 0.95. -/
theorem C10_confidence_bounds (intent_conf behavior_score : ℚ) (crypto_valid : Bool)
    (ml_confidence : Option ℚ) :
    0.5 ≤ calculate_confidence intent_conf behavior_score crypto_valid ml_confidence ∧
    calculate_confidence intent_conf behavior_score crypto_valid ml_confidence ≤ 0.95 := by
  simp only [calculate_confidence]
  rcases ml_confidence with _ | c <;>
    refine ⟨le_max_left _ _, max_le (by norm_num) (round2_le_of_le ?_)⟩ <;>
    (dsimp only; split_ifs <;> norm_num)

/-- C7: sender classification is a function of the transport source address
alone: two datagrams with the same source IP and arbitrary payloads classify
identically, and the classification is trusted (`"GCS"`) exactly when the
source IP equals the configured trusted-GCS address, `"UNTRUSTED"` otherwise. -/
theorem C7_classification_by_source_ip_only (trusted_gcs_ip : String)
    (d1 d2 : Datagram) (hip : d1.src_ip = d2.src_ip) :
    datagramSenderType trusted_gcs_ip d1 = datagramSenderType trusted_gcs_ip d2 ∧
    (datagramSenderType trusted_gcs_ip d1 = "GCS" ↔ d1.src_ip = trusted_gcs_ip) ∧
    (d1.src_ip ≠ trusted_gcs_ip → datagramSenderType trusted_gcs_ip d1 = "UNTRUSTED") := by
  unfold datagramSenderType classify_sender
  refine ⟨by rw [hip], ?_, fun hne => if_neg hne⟩
  constructor
  · intro h
    by_contra hne
    rw [if_neg hne] at h
    exact absurd h (by decide)
  · intro h
    rw [if_pos h]

/-- Witness for C7: two datagrams from 10.0.0.7 with different payloads get the
same classification, which is `"UNTRUSTED"` because 10.0.0.7 is not the
configured trusted-GCS address. -/
theorem C7_classification_by_source_ip_only_witness :
    datagramSenderType "127.0.0.1" { src_ip := "10.0.0.7", src_port := 5000, messages := ["COMMAND_LONG"] } =
      datagramSenderType "127.0.0.1" { src_ip := "10.0.0.7", src_port := 6000, messages := ["HEARTBEAT"] } ∧
    datagramSenderType "127.0.0.1" { src_ip := "10.0.0.7", src_port := 5000, messages := ["COMMAND_LONG"] } = "UNTRUSTED" := by
  have h := C7_classification_by_source_ip_only "127.0.0.1"
    { src_ip := "10.0.0.7", src_port := 5000, messages := ["COMMAND_LONG"] }
    { src_ip := "10.0.0.7", src_port := 6000, messages := ["HEARTBEAT"] } rfl
  exact ⟨h.1, h.2.2 (by decide)⟩

/-- C8: `decrypt_payload` rejects any nonce whose trailing-8-byte counter is
not strictly greater than the last seen counter, raising a replay error,
escalating the session risk level to high, and never consulting the key or
the AES-GCM primitive; on every failing call the last-seen counter is
unchanged, and it advances (to the nonce's counter) only on success. -/
theorem C8_decrypt_replay_guard (st : CryptoState) (nonce : List Nat)
    (key_fetch : Bool) (gcm_plain : Option (List Nat)) :
    (extract_counter nonce ≤ st.last_seen_counter →
      (decrypt_payload st nonce key_fetch gcm_plain).1 = Except.error DecryptErr.replay ∧
      (decrypt_payload st nonce key_fetch gcm_plain).2.risk_level = "high" ∧
      (decrypt_payload st nonce key_fetch gcm_plain).2.last_seen_counter = st.last_seen_counter ∧
      (∀ key_fetch' gcm_plain', decrypt_payload st nonce key_fetch' gcm_plain' =
        decrypt_payload st nonce key_fetch gcm_plain)) ∧
    (∀ e, (decrypt_payload st nonce key_fetch gcm_plain).1 = Except.error e →
      (decrypt_payload st nonce key_fetch gcm_plain).2.last_seen_counter = st.last_seen_counter) ∧
    (∀ pt, (decrypt_payload st nonce key_fetch gcm_plain).1 = Except.ok pt →
      (decrypt_payload st nonce key_fetch gcm_plain).2.last_seen_counter = extract_counter nonce) := by
  by_cases hc : extract_counter nonce ≤ st.last_seen_counter
  · simp only [decrypt_payload, if_pos hc]
    exact ⟨fun _ => ⟨trivial, trivial, trivial, fun key_fetch' gcm_plain' => by
              simp only [decrypt_payload, if_pos hc]⟩,
           fun e _ => trivial, fun pt hpt => Except.noConfusion hpt⟩
  · by_cases hk : key_fetch = false
    · simp only [decrypt_payload, if_neg hc, if_pos hk]
      exact ⟨fun h => absurd h hc, fun e _ => trivial, fun pt hpt => Except.noConfusion hpt⟩
    · rcases gcm_plain with _ | pt
      · simp only [decrypt_payload, if_neg hc, if_neg hk]
        exact ⟨fun h => absurd h hc, fun e _ => trivial, fun pt hpt => Except.noConfusion hpt⟩
      · simp only [decrypt_payload, if_neg hc, if_neg hk]
        exact ⟨fun h => absurd h hc, fun e he => Except.noConfusion he, fun pt' hpt => trivial⟩

/-- Witness for C8: a replayed counter (5 ≤ 9) is rejected with risk escalated
and the counter untouched, independent of the crypto oracle; and a fresh
counter (12 > 9) advances the counter on success. -/
theorem C8_decrypt_replay_guard_witness :
    (decrypt_payload { last_seen_counter := 9, risk_level := "low", command_count := 0 }
      [0, 0, 0, 0, 0, 0, 0, 0, 0, 0, 0, 5] true (some [42])).1 = Except.error DecryptErr.replay ∧
    (decrypt_payload { last_seen_counter := 9, risk_level := "low", command_count := 0 }
      [0, 0, 0, 0, 0, 0, 0, 0, 0, 0, 0, 5] true (some [42])).2.risk_level = "high" ∧
    (decrypt_payload { last_seen_counter := 9, risk_level := "low", command_count := 0 }
      [0, 0, 0, 0, 0, 0, 0, 0, 0, 0, 0, 12] true (some [42])).2.last_seen_counter = 12 := by
  refine ⟨((C8_decrypt_replay_guard _ _ true (some [42])).1 (by decide)).1,
          ((C8_decrypt_replay_guard _ _ true (some [42])).1 (by decide)).2.1,
          (C8_decrypt_replay_guard _ _ true (some [42])).2.2 [42] rfl⟩

theorem rdAgg_false_iff (a b c : Bool) :
    (rdAggregateDetection a b c).1 = false ↔ a = false ∧ b = false ∧ c = false := by
  cases a <;> cases b <;> cases c <;> simp [rdAggregateDetection]

theorem ts_ok_of_no_anomaly {cfg : RDConfig} {s : RDState} {now ts : ℚ}
    (h : rdCheckTimestamp cfg s now ts = false) :
    s.last_valid_timestamp - 5 ≤ ts := by
  unfold rdCheckTimestamp at h
  split_ifs at h with h1 h2 h3
  linarith [not_lt.mp h3]

/-- C6: the replay detector never accepts a frame more than the 5 s reorder
tolerance older than the highest accepted timestamp: across every call, the
tracked maximum accepted timestamp is non-decreasing, and a frame returned
clean has timestamp ≥ (that maximum − 5 s), after which the maximum becomes
`max` of itself and the frame's timestamp. -/
theorem C6_accepted_timestamps_monotone (cfg : RDConfig) (s : RDState) (now : ℚ)
    (nonce : Nat) (timestamp : ℚ) (command_hash : Option Nat) :
    s.last_valid_timestamp ≤
      (check_command cfg s now nonce timestamp command_hash).2.last_valid_timestamp ∧
    ((check_command cfg s now nonce timestamp command_hash).1.is_replay = false →
      s.last_valid_timestamp - 5 ≤ timestamp ∧
      (check_command cfg s now nonce timestamp command_hash).2.last_valid_timestamp =
        max s.last_valid_timestamp timestamp) := by
  by_cases hb : (rdAggregateDetection (rdCheckNonce s nonce)
      (rdCheckTimestamp cfg s now timestamp) (rdCheckSequence s command_hash timestamp)).1 = true
  · have hs : (check_command cfg s now nonce timestamp command_hash).2 = s := by
      simp only [check_command, hb, if_true]
    have hm : (check_command cfg s now nonce timestamp command_hash).1.is_replay = true := by
      simp only [check_command, hb]
    rw [hs]
    exact ⟨le_refl _, fun hclean => absurd hm (by rw [hclean]; decide)⟩
  · have hb' : (rdAggregateDetection (rdCheckNonce s nonce)
        (rdCheckTimestamp cfg s now timestamp) (rdCheckSequence s command_hash timestamp)).1 = false :=
      Bool.not_eq_true _ ▸ eq_false_of_ne_true hb
    have hs : (check_command cfg s now nonce timestamp command_hash).2 =
        rdUpdateTracking cfg s nonce timestamp command_hash := by
      simp [check_command, hb']
    have hlast : (rdUpdateTracking cfg s nonce timestamp command_hash).last_valid_timestamp =
        max s.last_valid_timestamp timestamp := rfl
    have hta : rdCheckTimestamp cfg s now timestamp = false :=
      ((rdAgg_false_iff _ _ _).mp hb').2.1
    rw [hs, hlast]
    exact ⟨le_max_left _ _, fun _ => ⟨ts_ok_of_no_anomaly hta, rfl⟩⟩

/-- Witness for C6: from the fresh state, a clean frame at timestamp 100 is
accepted (100 ≥ 0 − 5) and the tracked maximum rises from 0 to 100. -/
theorem C6_accepted_timestamps_monotone_witness :
    (0:ℚ) - 5 ≤ 100 ∧
    (check_command defaultRDConfig initialRDState 100 5 100 none).2.last_valid_timestamp =
      max 0 100 := by
  have h := (C6_accepted_timestamps_monotone defaultRDConfig initialRDState 100 5 100 none).2
  have hclean : (check_command defaultRDConfig initialRDState 100 5 100 none).1.is_replay = false := by
    simp only [check_command, rdCheckNonce, rdCheckTimestamp, rdCheckSequence,
      rdAggregateDetection, initialRDState, defaultRDConfig]
    norm_num
  exact h hclean

theorem authorize_message_gcs (msg_type src_ip : String) :
    authorize_message msg_type "GCS" src_ip = (true, none) := by
  simp [authorize_message]

theorem processLoop_gcs_admitted (src_ip : String) (ai_enabled : Bool)
    (aiAllows : String → Bool) (msgs : List String) :
    ∀ (all_forwarded : Bool) (ev dr : Nat) (adm : List String),
      (processLoop "GCS" src_ip ai_enabled aiAllows msgs all_forwarded ev dr adm).admitted =
        adm ++ msgs := by
  induction msgs with
  | nil => intro af ev dr adm; simp [processLoop]
  | cons m rest ih =>
    intro af ev dr adm
    rw [processLoop, authorize_message_gcs]
    by_cases hai : (ai_enabled : Prop) ∧ ¬ (aiAllows m : Prop)
    · rw [if_pos hai, ih]
      simp
    · rw [if_neg hai, ih]
      simp

/-- C1: every untrusted datagram carrying one of the eleven blocked MAVLink
command types is not forwarded and is logged as exactly one security event;
every other untrusted message type is dropped silently with no security
event; and every message from a trusted-GCS sender is admitted to the
detector stage. -/
theorem C1_untrusted_authorization_matrix (trusted_gcs_ip src_ip : String)
    (ai_enabled : Bool) (aiAllows : String → Bool) :
    (classify_sender trusted_gcs_ip src_ip = "UNTRUSTED" →
      ∀ m : String,
        (m ∈ BLOCKED_COMMANDS →
          process_message trusted_gcs_ip src_ip ai_enabled aiAllows [m] =
            { forward := false, security_events := 1, silent_drops := 0, admitted := [] }) ∧
        (m ∉ BLOCKED_COMMANDS →
          process_message trusted_gcs_ip src_ip ai_enabled aiAllows [m] =
            { forward := false, security_events := 0, silent_drops := 1, admitted := [] })) ∧
    (classify_sender trusted_gcs_ip src_ip = "GCS" →
      ∀ msgs : List String,
        (process_message trusted_gcs_ip src_ip ai_enabled aiAllows msgs).admitted = msgs) := by
  constructor
  · intro hcl m
    constructor
    · intro hm
      have hauth : authorize_message m "UNTRUSTED" src_ip =
          (false, some ("SECURITY: Command " ++ m ++ " from UNTRUSTED source " ++ src_ip)) := by
        simp [authorize_message, hm]
      simp only [process_message, hcl]
      rw [processLoop, hauth]
      rfl
    · intro hm
      have hauth : authorize_message m "UNTRUSTED" src_ip = (false, none) := by
        simp [authorize_message, hm]
      simp only [process_message, hcl]
      rw [processLoop, hauth]
      rfl
  · intro hcl msgs
    cases msgs with
    | nil => rfl
    | cons m rest =>
      simp only [process_message, hcl]
      rw [processLoop_gcs_admitted]
      simp

/-- Witness for C1: from 10.0.0.9 (untrusted), COMMAND_LONG is blocked with one
security event, HEARTBEAT is dropped silently; from 127.0.0.1 (trusted GCS),
both messages are admitted to the detector stage. -/
theorem C1_untrusted_authorization_matrix_witness :
    process_message "127.0.0.1" "10.0.0.9" true (fun _ => true) ["COMMAND_LONG"] =
      { forward := false, security_events := 1, silent_drops := 0, admitted := [] } ∧
    process_message "127.0.0.1" "10.0.0.9" true (fun _ => true) ["HEARTBEAT"] =
      { forward := false, security_events := 0, silent_drops := 1, admitted := [] } ∧
    (process_message "127.0.0.1" "127.0.0.1" true (fun _ => true)
      ["COMMAND_LONG", "HEARTBEAT"]).admitted = ["COMMAND_LONG", "HEARTBEAT"] := by
  refine ⟨((C1_untrusted_authorization_matrix "127.0.0.1" "10.0.0.9" true (fun _ => true)).1
            (by rfl) "COMMAND_LONG").1 (by decide),
          ((C1_untrusted_authorization_matrix "127.0.0.1" "10.0.0.9" true (fun _ => true)).1
            (by rfl) "HEARTBEAT").2 (by decide),
          (C1_untrusted_authorization_matrix "127.0.0.1" "127.0.0.1" true (fun _ => true)).2
            (by rfl) ["COMMAND_LONG", "HEARTBEAT"]⟩

theorem applyGeofenceFloor_mono {sr : ShadowResult} {t t' : ℚ} (h : t ≤ t') :
    applyGeofenceFloor sr t ≤ applyGeofenceFloor sr t' := by
  unfold applyGeofenceFloor
  split_ifs
  · exact max_le_max h le_rfl
  · exact h

theorem applyBehaviorFloor_mono {br br' : BehaviorResult} {t t' : ℚ}
    (hlvl : br.anomaly_level = br'.anomaly_level) (h : t ≤ t') :
    applyBehaviorFloor br t ≤ applyBehaviorFloor br' t' := by
  unfold applyBehaviorFloor
  rw [hlvl]
  split_ifs
  · exact max_le_max h le_rfl
  · exact h

theorem applyCryptoFloor_mono {cv : Bool} {t t' : ℚ} (h : t ≤ t') :
    applyCryptoFloor cv t ≤ applyCryptoFloor cv t' := by
  unfold applyCryptoFloor
  split_ifs
  · exact h
  · exact max_le_max h le_rfl

theorem applyCryptoFloor_valid_le_invalid {t t' : ℚ} (h : t ≤ t') :
    applyCryptoFloor true t ≤ applyCryptoFloor false t' := by
  unfold applyCryptoFloor
  simp only [if_pos, if_neg]
  exact le_trans h (le_max_left _ _)

theorem applyMLFloor_mono {ml ml' : Option MLIntentResult} {t t' : ℚ}
    (hflag : mlHighRiskFlag ml = true → mlHighRiskFlag ml' = true) (h : t ≤ t') :
    applyMLFloor ml t ≤ applyMLFloor ml' t' := by
  unfold applyMLFloor
  by_cases h1 : mlHighRiskFlag ml = true
  · rw [if_pos h1, if_pos (hflag h1)]
    exact max_le_max h le_rfl
  · rw [if_neg h1]
    split_ifs
    · exact le_trans h (le_max_left _ _)
    · exact h

theorem aggregate_risk_mono_core {cv cv' : Bool} {ir ir' : IntentResult}
    {br br' : BehaviorResult} {sr sr' : ShadowResult}
    {ml ml' : Option MLIntentResult}
    (hw : weightedRisk cv ir br sr ml ≤ weightedRisk cv' ir' br' sr' ml')
    (hgeo : sr.predicted_outcomes = sr'.predicted_outcomes)
    (hlvl : br.anomaly_level = br'.anomaly_level)
    (hcv : cv = cv' ∨ (cv = true ∧ cv' = false))
    (hml : mlHighRiskFlag ml = true → mlHighRiskFlag ml' = true) :
    aggregate_risk cv ir br sr ml ≤ aggregate_risk cv' ir' br' sr' ml' := by
  unfold aggregate_risk applyOverrides
  apply round2_mono
  apply min_le_min le_rfl
  apply applyMLFloor_mono hml
  have hgm : applyGeofenceFloor sr (weightedRisk cv ir br sr ml) ≤
      applyGeofenceFloor sr' (weightedRisk cv' ir' br' sr' ml') := by
    unfold applyGeofenceFloor
    rw [hgeo]
    split_ifs
    · exact max_le_max hw le_rfl
    · exact hw
  have hbm : applyBehaviorFloor br (applyGeofenceFloor sr (weightedRisk cv ir br sr ml)) ≤
      applyBehaviorFloor br' (applyGeofenceFloor sr' (weightedRisk cv' ir' br' sr' ml')) :=
    applyBehaviorFloor_mono hlvl hgm
  rcases hcv with rfl | ⟨rfl, rfl⟩
  · exact applyCryptoFloor_mono hbm
  · exact applyCryptoFloor_valid_le_invalid hbm

theorem weightedRisk_crypto_mono (ir : IntentResult) (br : BehaviorResult)
    (sr : ShadowResult) (ml : Option MLIntentResult) :
    weightedRisk true ir br sr ml ≤ weightedRisk false ir br sr ml := by
  unfold weightedRisk
  norm_num

theorem intentRiskComponent_mono (ir : IntentResult) :
    intentRiskComponent { ir with intent_match := true } ≤
      intentRiskComponent { ir with intent_match := false } := by
  simp only [intentRiskComponent]
  split_ifs <;> norm_num [max_def]

theorem weightedRisk_intent_mono {cv : Bool} {ir ir' : IntentResult}
    (br : BehaviorResult) (sr : ShadowResult) (ml : Option MLIntentResult)
    (h : intentRiskComponent ir ≤ intentRiskComponent ir') :
    weightedRisk cv ir br sr ml ≤ weightedRisk cv ir' br sr ml := by
  unfold weightedRisk
  have h15 := mul_le_mul_of_nonneg_left h (by norm_num : (0:ℚ) ≤ 0.15)
  linarith

theorem weightedRisk_behavior_mono (cv : Bool) (ir : IntentResult)
    (br : BehaviorResult) (sr : ShadowResult) (ml : Option MLIntentResult)
    {b b' : ℚ} (h : b ≤ b') :
    weightedRisk cv ir { br with behavior_score := b } sr ml ≤
      weightedRisk cv ir { br with behavior_score := b' } sr ml := by
  unfold weightedRisk
  dsimp only
  have h2 := mul_le_mul_of_nonneg_left h (by norm_num : (0:ℚ) ≤ 0.2)
  linarith

theorem weightedRisk_trajectory_mono (cv : Bool) (ir : IntentResult)
    (br : BehaviorResult) (sr : ShadowResult) (ml : Option MLIntentResult)
    {t t' : ℚ} (h : t ≤ t') :
    weightedRisk cv ir br { sr with trajectory_risk := t } ml ≤
      weightedRisk cv ir br { sr with trajectory_risk := t' } ml := by
  unfold weightedRisk
  dsimp only
  have h2 := mul_le_mul_of_nonneg_left h (by norm_num : (0:ℚ) ≤ 0.2)
  linarith

theorem mlRiskComponent_mono (m : MLIntentResult) {r r' : ℚ} (h : r ≤ r') :
    mlRiskComponent (some { m with intent_risk := r }) ≤
      mlRiskComponent (some { m with intent_risk := r' }) := by
  unfold mlRiskComponent
  dsimp only
  split_ifs
  · exact h
  · exact le_refl _

theorem mlHighRiskFlag_mono (m : MLIntentResult) {r r' : ℚ} (h : r ≤ r')
    (hf : mlHighRiskFlag (some { m with intent_risk := r }) = true) :
    mlHighRiskFlag (some { m with intent_risk := r' }) = true := by
  unfold mlHighRiskFlag at hf ⊢
  dsimp only at hf ⊢
  rw [Bool.and_eq_true, decide_eq_true_iff, decide_eq_true_iff] at hf ⊢
  exact ⟨hf.1, lt_of_lt_of_le hf.2 h⟩

theorem weightedRisk_ml_mono (cv : Bool) (ir : IntentResult)
    (br : BehaviorResult) (sr : ShadowResult) {ml ml' : Option MLIntentResult}
    (h : mlRiskComponent ml ≤ mlRiskComponent ml') :
    weightedRisk cv ir br sr ml ≤ weightedRisk cv ir br sr ml' := by
  unfold weightedRisk
  have h2 := mul_le_mul_of_nonneg_left h (by norm_num : (0:ℚ) ≤ 0.2)
  linarith

/-- C3: the aggregated total risk is monotone non-decreasing in each input
holding the others fixed — in crypto invalidity, in rule-intent mismatch, in
the behavior score, in the trajectory risk, and (for fixed ML confidence) in
the ML intent risk — through the emergency-override floors, the clamp to
[0,1], and the two-decimal rounding. -/
theorem C3_aggregate_risk_monotone :
    (∀ (ir : IntentResult) (br : BehaviorResult) (sr : ShadowResult)
       (ml : Option MLIntentResult),
      aggregate_risk true ir br sr ml ≤ aggregate_risk false ir br sr ml) ∧
    (∀ (cv : Bool) (ir : IntentResult) (br : BehaviorResult) (sr : ShadowResult)
       (ml : Option MLIntentResult),
      aggregate_risk cv { ir with intent_match := true } br sr ml ≤
        aggregate_risk cv { ir with intent_match := false } br sr ml) ∧
    (∀ (cv : Bool) (ir : IntentResult) (br : BehaviorResult) (sr : ShadowResult)
       (ml : Option MLIntentResult) (b b' : ℚ), b ≤ b' →
      aggregate_risk cv ir { br with behavior_score := b } sr ml ≤
        aggregate_risk cv ir { br with behavior_score := b' } sr ml) ∧
    (∀ (cv : Bool) (ir : IntentResult) (br : BehaviorResult) (sr : ShadowResult)
       (ml : Option MLIntentResult) (t t' : ℚ), t ≤ t' →
      aggregate_risk cv ir br { sr with trajectory_risk := t } ml ≤
        aggregate_risk cv ir br { sr with trajectory_risk := t' } ml) ∧
    (∀ (cv : Bool) (ir : IntentResult) (br : BehaviorResult) (sr : ShadowResult)
       (m : MLIntentResult) (r r' : ℚ), r ≤ r' →
      aggregate_risk cv ir br sr (some { m with intent_risk := r }) ≤
        aggregate_risk cv ir br sr (some { m with intent_risk := r' })) := by
  refine ⟨fun ir br sr ml => ?_, fun cv ir br sr ml => ?_, fun cv ir br sr ml b b' hb => ?_,
          fun cv ir br sr ml t t' ht => ?_, fun cv ir br sr m r r' hr => ?_⟩
  · exact aggregate_risk_mono_core (weightedRisk_crypto_mono ir br sr ml) rfl rfl
      (Or.inr ⟨rfl, rfl⟩) (fun hf => hf)
  · exact aggregate_risk_mono_core
      (weightedRisk_intent_mono br sr ml (intentRiskComponent_mono ir)) rfl rfl
      (Or.inl rfl) (fun hf => hf)
  · exact aggregate_risk_mono_core (weightedRisk_behavior_mono cv ir br sr ml hb) rfl rfl
      (Or.inl rfl) (fun hf => hf)
  · exact aggregate_risk_mono_core (weightedRisk_trajectory_mono cv ir br sr ml ht) rfl rfl
      (Or.inl rfl) (fun hf => hf)
  · exact aggregate_risk_mono_core
      (weightedRisk_ml_mono cv ir br sr (mlRiskComponent_mono m hr)) rfl rfl
      (Or.inl rfl) (mlHighRiskFlag_mono m hr)

/-- Witness for C3: monotonicity instantiated at concrete inputs — raising the
behavior score from 0.2 to 0.9 (others fixed) does not lower the total risk. -/
theorem C3_aggregate_risk_monotone_witness :
    aggregate_risk true { intent_match := true, confidence := 0.8, reason := "" }
      { behavior_score := 0.2, anomaly_level := "LOW", anomaly_features := [], explanation := "" }
      { trajectory_risk := 0.1,
        predicted_outcomes := { geofence_violation := false, velocity_risk := false,
                                altitude_risk := false, time_to_violation := 0 },
        explanation := "" } none ≤
    aggregate_risk true { intent_match := true, confidence := 0.8, reason := "" }
      { behavior_score := 0.9, anomaly_level := "LOW", anomaly_features := [], explanation := "" }
      { trajectory_risk := 0.1,
        predicted_outcomes := { geofence_violation := false, velocity_risk := false,
                                altitude_risk := false, time_to_violation := 0 },
        explanation := "" } none :=
  C3_aggregate_risk_monotone.2.2.1 true
    { intent_match := true, confidence := 0.8, reason := "" }
    { behavior_score := 0.2, anomaly_level := "LOW", anomaly_features := [], explanation := "" }
    { trajectory_risk := 0.1,
      predicted_outcomes := { geofence_violation := false, velocity_risk := false,
                              altitude_risk := false, time_to_violation := 0 },
      explanation := "" } none 0.2 0.9 (by norm_num)

/-- C4 counterexample: after accepting a frame (hash 7, timestamp 965, checked
at 990), a frame at wall-clock 1000 with fresh nonce, stale timestamp 962
(outside the 30 s tolerance) and the same recent payload hash is flagged with
confidence 0.95 — not the 0.85 the claim assigns to every timestamp-rule
detection. -/
theorem C4_confidence_counterexample :
    (check_command defaultRDConfig c4PriorState 1000 2 962 (some 7)).1.nonce_duplicate = false ∧
    (check_command defaultRDConfig c4PriorState 1000 2 962 (some 7)).1.timestamp_anomaly = true ∧
    (check_command defaultRDConfig c4PriorState 1000 2 962 (some 7)).1.is_replay = true ∧
    (check_command defaultRDConfig c4PriorState 1000 2 962 (some 7)).1.confidence = 0.95 ∧
    ¬ (check_command defaultRDConfig c4PriorState 1000 2 962 (some 7)).1.confidence = 0.85 := by
  have hstate : c4PriorState =
      { seen_nonces := [1], nonce_queue := [1], last_valid_timestamp := 965,
        command_history := [(7, 965)] } := by
    simp only [c4PriorState, check_command, rdCheckNonce, rdCheckTimestamp, rdCheckSequence,
      rdAggregateDetection, rdUpdateTracking, dequeFit, dequeFitH, setAdd,
      initialRDState, defaultRDConfig]
    norm_num
  rw [hstate]
  simp only [check_command, rdCheckNonce, rdCheckTimestamp, rdCheckSequence,
    rdAggregateDetection, rdUpdateTracking, dequeFit, dequeFitH, setAdd, defaultRDConfig]
  norm_num

/-- C4 (amended): layered rules, first decisive wins — duplicate nonce:
confidence 1.0 and no state change; fresh nonce with timestamp anomaly (outside
the 30 s tolerance of now, or more than 5 s older than the highest accepted
timestamp): confidence 0.95 when a payload-hash duplicate inside the 5 s
window coincides, else 0.85; fresh nonce, fresh timestamp, hash duplicate
alone: confidence 0.70; otherwise the command is clean and the nonce,
timestamp, and hash are recorded. -/
theorem C4_replay_layered_rules (cfg : RDConfig) (s : RDState) (now : ℚ)
    (nonce : Nat) (timestamp : ℚ) (command_hash : Option Nat) :
    (rdCheckTimestamp cfg s now timestamp = true ↔
      (timestamp < now - cfg.timestamp_tolerance ∨
       now + cfg.timestamp_tolerance < timestamp ∨
       timestamp < s.last_valid_timestamp - 5)) ∧
    (rdCheckNonce s nonce = true ↔ nonce ∈ s.seen_nonces) ∧
    (rdCheckNonce s nonce = true →
      (check_command cfg s now nonce timestamp command_hash).1.is_replay = true ∧
      (check_command cfg s now nonce timestamp command_hash).1.confidence = 1.0 ∧
      (check_command cfg s now nonce timestamp command_hash).2 = s) ∧
    (rdCheckNonce s nonce = false → rdCheckTimestamp cfg s now timestamp = true →
      rdCheckSequence s command_hash timestamp = true →
      (check_command cfg s now nonce timestamp command_hash).1.is_replay = true ∧
      (check_command cfg s now nonce timestamp command_hash).1.confidence = 0.95 ∧
      (check_command cfg s now nonce timestamp command_hash).2 = s) ∧
    (rdCheckNonce s nonce = false → rdCheckTimestamp cfg s now timestamp = true →
      rdCheckSequence s command_hash timestamp = false →
      (check_command cfg s now nonce timestamp command_hash).1.is_replay = true ∧
      (check_command cfg s now nonce timestamp command_hash).1.confidence = 0.85 ∧
      (check_command cfg s now nonce timestamp command_hash).2 = s) ∧
    (rdCheckNonce s nonce = false → rdCheckTimestamp cfg s now timestamp = false →
      rdCheckSequence s command_hash timestamp = true →
      (check_command cfg s now nonce timestamp command_hash).1.is_replay = true ∧
      (check_command cfg s now nonce timestamp command_hash).1.confidence = 0.70 ∧
      (check_command cfg s now nonce timestamp command_hash).2 = s) ∧
    (rdCheckNonce s nonce = false → rdCheckTimestamp cfg s now timestamp = false →
      rdCheckSequence s command_hash timestamp = false →
      (check_command cfg s now nonce timestamp command_hash).1.is_replay = false ∧
      (check_command cfg s now nonce timestamp command_hash).2 =
        rdUpdateTracking cfg s nonce timestamp command_hash) := by
  refine ⟨?_, by simp [rdCheckNonce], ?_, ?_, ?_, ?_, ?_⟩
  · unfold rdCheckTimestamp
    split_ifs <;> simp_all
  · intro h1
    simp [check_command, h1, rdAggregateDetection]
  · intro h1 h2 h3
    simp [check_command, h1, h2, h3, rdAggregateDetection]
  · intro h1 h2 h3
    simp [check_command, h1, h2, h3, rdAggregateDetection]
  · intro h1 h2 h3
    simp [check_command, h1, h2, h3, rdAggregateDetection]
  · intro h1 h2 h3
    simp [check_command, h1, h2, h3, rdAggregateDetection]

/-- Witness for the amended C4: from the fresh detector state, a frame with
fresh nonce, in-tolerance timestamp and unseen hash is clean and recorded. -/
theorem C4_replay_layered_rules_witness :
    (check_command defaultRDConfig initialRDState 50 3 49 (some 11)).1.is_replay = false ∧
    (check_command defaultRDConfig initialRDState 50 3 49 (some 11)).2 =
      rdUpdateTracking defaultRDConfig initialRDState 3 49 (some 11) := by
  refine (C4_replay_layered_rules defaultRDConfig initialRDState 50 3 49 (some 11)).2.2.2.2.2.2
    ?_ ?_ ?_
  · simp [rdCheckNonce, initialRDState]
  · norm_num [rdCheckTimestamp, initialRDState, defaultRDConfig]
  · simp [rdCheckSequence, initialRDState]

theorem c5StateA_eq : c5StateA =
    { seen_nonces := [1], nonce_queue := [1], last_valid_timestamp := 10,
      command_history := [] } := by
  simp only [c5StateA, check_command, rdCheckNonce, rdCheckTimestamp, rdCheckSequence,
    rdAggregateDetection, rdUpdateTracking, dequeFit, dequeFitH, setAdd,
    initialRDState, rdCfgSmall]
  norm_num

theorem c5StateB_eq : c5StateB =
    { seen_nonces := [1, 2], nonce_queue := [1, 2], last_valid_timestamp := 11,
      command_history := [] } := by
  rw [c5StateB, c5StateA_eq]
  simp only [check_command, rdCheckNonce, rdCheckTimestamp, rdCheckSequence,
    rdAggregateDetection, rdUpdateTracking, dequeFit, dequeFitH, setAdd, rdCfgSmall]
  norm_num

theorem c5StateC_eq : c5StateC =
    { seen_nonces := [2, 3], nonce_queue := [2, 3], last_valid_timestamp := 12,
      command_history := [] } := by
  rw [c5StateC, c5StateB_eq]
  simp only [check_command, rdCheckNonce, rdCheckTimestamp, rdCheckSequence,
    rdAggregateDetection, rdUpdateTracking, dequeFit, dequeFitH, setAdd, rdCfgSmall]
  norm_num

/-- C5 counterexample: with window capacity 2 (a constructor parameter of
`ReplayDetector`), nonce 1 is accepted, two more commands are accepted (the
second evicting nonce 1 from the window), and then nonce 1 is presented again
and reported clean — so a previously-accepted nonce is reported as new after
enough intervening accepted commands, refuting "arbitrarily many". -/
theorem C5_eviction_counterexample :
    (check_command rdCfgSmall initialRDState 10 1 10 none).1.is_replay = false ∧
    (check_command rdCfgSmall c5StateA 11 2 11 none).1.is_replay = false ∧
    (check_command rdCfgSmall c5StateB 12 3 12 none).1.is_replay = false ∧
    (check_command rdCfgSmall c5StateC 13 1 13 none).1.is_replay = false := by
  refine ⟨?_, ?_, ?_, ?_⟩
  · simp only [check_command, rdCheckNonce, rdCheckTimestamp, rdCheckSequence,
      rdAggregateDetection, initialRDState, rdCfgSmall]
    norm_num
  · rw [c5StateA_eq]
    simp only [check_command, rdCheckNonce, rdCheckTimestamp, rdCheckSequence,
      rdAggregateDetection, rdCfgSmall]
    norm_num
  · rw [c5StateB_eq]
    simp only [check_command, rdCheckNonce, rdCheckTimestamp, rdCheckSequence,
      rdAggregateDetection, rdCfgSmall]
    norm_num
  · rw [c5StateC_eq]
    simp only [check_command, rdCheckNonce, rdCheckTimestamp, rdCheckSequence,
      rdAggregateDetection, rdCfgSmall]
    norm_num

theorem setAdd_of_not_mem {l : List Nat} {x : Nat} (h : x ∉ l) : setAdd l x = l ++ [x] := by
  simp [setAdd, h]

theorem dequeFit_of_le {n : Nat} {l : List Nat} (h : l.length ≤ n) : dequeFit n l = l := by
  unfold dequeFit
  have h0 : l.length - n = 0 := Nat.sub_eq_zero_of_le h
  rw [h0, List.drop_zero]

theorem rd_seen_nonce_flags_replay {cfg : RDConfig} {s : RDState} {nonce : Nat}
    (hmem : nonce ∈ s.seen_nonces) (now ts : ℚ) (h : Option Nat) :
    (check_command cfg s now nonce ts h).1.is_replay = true ∧
    (check_command cfg s now nonce ts h).1.confidence = 1 := by
  have hnd : rdCheckNonce s nonce = true := by simp [rdCheckNonce, hmem]
  refine ⟨by simp [check_command, hnd, rdAggregateDetection], ?_⟩
  simp only [check_command, hnd, rdAggregateDetection]
  norm_num

theorem rdUpdate_queue (cfg : RDConfig) (s : RDState) (n : Nat) (ts : ℚ)
    (h : Option Nat) (hlen : s.nonce_queue.length ≤ cfg.nonce_window_size)
    (hN : 1 ≤ cfg.nonce_window_size) :
    (rdUpdateTracking cfg s n ts h).nonce_queue =
      if cfg.nonce_window_size ≤ s.nonce_queue.length then s.nonce_queue.tail ++ [n]
      else s.nonce_queue ++ [n] := by
  unfold rdUpdateTracking
  dsimp only
  split_ifs with hc
  · have hlen' : s.nonce_queue.length = cfg.nonce_window_size := le_antisymm hlen hc
    unfold dequeFit
    have h1 : (s.nonce_queue ++ [n]).length - cfg.nonce_window_size = 1 := by
      simp [hlen']
    rw [h1]
    cases hq : s.nonce_queue with
    | nil => rw [hq] at hlen'; simp at hlen'; omega
    | cons a t => simp
  · exact dequeFit_of_le (by simp; omega)

theorem rdUpdate_seen (cfg : RDConfig) (s : RDState) (n : Nat) (ts : ℚ) (h : Option Nat) :
    (rdUpdateTracking cfg s n ts h).seen_nonces =
      setAdd (if cfg.nonce_window_size ≤ s.nonce_queue.length then
                (match s.nonce_queue with
                 | [] => s.seen_nonces
                 | old :: _ => s.seen_nonces.erase old)
              else s.seen_nonces) n := rfl

theorem rdWF_update (cfg : RDConfig) (hN : 1 ≤ cfg.nonce_window_size) {s : RDState}
    (hwf : RDWF cfg s) {n : Nat} (hn : n ∉ s.seen_nonces) (ts : ℚ) (h : Option Nat) :
    RDWF cfg (rdUpdateTracking cfg s n ts h) := by
  obtain ⟨hqnd, hsnd, hmem, hlen⟩ := hwf
  have hnq : n ∉ s.nonce_queue := fun hin => hn ((hmem n).mpr hin)
  have hqueue := rdUpdate_queue cfg s n ts h hlen hN
  have hseen := rdUpdate_seen cfg s n ts h
  by_cases hfull : cfg.nonce_window_size ≤ s.nonce_queue.length
  · rw [if_pos hfull] at hqueue hseen
    cases hq : s.nonce_queue with
    | nil =>
      exfalso
      rw [hq] at hfull
      simp at hfull
      omega
    | cons old rest =>
      rw [hq] at hqueue hseen hqnd hmem hlen
      have hold : old ∉ rest := (List.nodup_cons.mp hqnd).1
      have hrestnd : rest.Nodup := (List.nodup_cons.mp hqnd).2
      have hnerase : n ∉ s.seen_nonces.erase old :=
        fun hin => hn (List.mem_of_mem_erase hin)
      rw [setAdd_of_not_mem hnerase] at hseen
      refine ⟨?_, ?_, ?_, ?_⟩
      · rw [hqueue]
        simp only [List.nodup_append, List.nodup_cons, List.nodup_nil, List.disjoint_singleton]
        have : n ∉ rest := fun hin => hnq (by rw [hq]; exact List.mem_cons_of_mem _ hin)
        simp [hrestnd, this]
      · rw [hseen]
        simp only [List.nodup_append, List.nodup_cons, List.nodup_nil, List.disjoint_singleton]
        simp [hsnd.erase old, hnerase]
      · intro x
        rw [hqueue, hseen]
        simp only [List.mem_append, List.mem_singleton]
        constructor
        · rintro (hx | rfl)
          · left
            have hx' := (hsnd.mem_erase_iff).mp hx
            have : x ∈ old :: rest := (hmem x).mp hx'.2
            rcases List.mem_cons.mp this with rfl | hr
            · exact absurd rfl hx'.1
            · exact hr
          · right; rfl
        · rintro (hx | rfl)
          · left
            refine (hsnd.mem_erase_iff).mpr ⟨?_, (hmem x).mpr (List.mem_cons_of_mem _ hx)⟩
            rintro rfl
            exact hold hx
          · right; rfl
      · rw [hqueue]
        rw [hq] at hfull
        simp at hfull hlen ⊢
        omega
  · rw [if_neg hfull] at hqueue hseen
    rw [setAdd_of_not_mem hn] at hseen
    refine ⟨?_, ?_, ?_, ?_⟩
    · rw [hqueue]
      simp only [List.nodup_append, List.nodup_cons, List.nodup_nil, List.disjoint_singleton]
      simp [hqnd, hnq]
    · rw [hseen]
      simp only [List.nodup_append, List.nodup_cons, List.nodup_nil, List.disjoint_singleton]
      simp [hsnd, hn]
    · intro x
      rw [hqueue, hseen]
      simp only [List.mem_append, List.mem_singleton]
      rw [hmem x]
    · rw [hqueue]
      simp
      omega

theorem rdWF_step (cfg : RDConfig) (hN : 1 ≤ cfg.nonce_window_size) {s : RDState}
    (hwf : RDWF cfg s) (c : RDCall) : RDWF cfg (rdStep cfg s c) := by
  by_cases hrep : (rdAggregateDetection (rdCheckNonce s c.nonce)
      (rdCheckTimestamp cfg s c.now c.timestamp)
      (rdCheckSequence s c.command_hash c.timestamp)).1 = true
  · have hs : rdStep cfg s c = s := by simp [rdStep, check_command, hrep]
    rw [hs]; exact hwf
  · have hb' := eq_false_of_ne_true hrep
    have hs : rdStep cfg s c = rdUpdateTracking cfg s c.nonce c.timestamp c.command_hash := by
      simp [rdStep, check_command, hb']
    have hnd : rdCheckNonce s c.nonce = false := ((rdAgg_false_iff _ _ _).mp hb').1
    have hn : c.nonce ∉ s.seen_nonces := by simpa [rdCheckNonce] using hnd
    rw [hs]
    exact rdWF_update cfg hN hwf hn c.timestamp c.command_hash

theorem rdWF_run (cfg : RDConfig) (hN : 1 ≤ cfg.nonce_window_size) :
    ∀ (calls : List RDCall) (s : RDState), RDWF cfg s → RDWF cfg (rdRun cfg s calls) := by
  intro calls
  induction calls with
  | nil => intro s hwf; exact hwf
  | cons c rest ih => intro s hwf; exact ih _ (rdWF_step cfg hN hwf c)

theorem rd_nonce_survives (cfg : RDConfig) (hN : 1 ≤ cfg.nonce_window_size) :
    ∀ (calls : List RDCall) (s : RDState) (n : Nat) (l1 l2 : List Nat),
      RDWF cfg s → s.nonce_queue = l1 ++ n :: l2 →
      l2.length + 1 + rdAcceptedCount cfg s calls ≤ cfg.nonce_window_size →
      ∃ l1' l2', (rdRun cfg s calls).nonce_queue = l1' ++ n :: l2' := by
  intro calls
  induction calls with
  | nil => intro s n l1 l2 hwf hq hb; exact ⟨l1, l2, hq⟩
  | cons c rest ih =>
    intro s n l1 l2 hwf hq hb
    have hrun : rdRun cfg s (c :: rest) = rdRun cfg (rdStep cfg s c) rest := rfl
    by_cases hrep : (rdAggregateDetection (rdCheckNonce s c.nonce)
        (rdCheckTimestamp cfg s c.now c.timestamp)
        (rdCheckSequence s c.command_hash c.timestamp)).1 = true
    · have hs : rdStep cfg s c = s := by simp [rdStep, check_command, hrep]
      have hcnt : rdAcceptedCount cfg s (c :: rest) =
          rdAcceptedCount cfg (rdStep cfg s c) rest := by
        simp [rdAcceptedCount, check_command, hrep]
      rw [hcnt, hs] at hb
      rw [hrun, hs]
      exact ih s n l1 l2 hwf hq hb
    · have hb' := eq_false_of_ne_true hrep
      have hs : rdStep cfg s c = rdUpdateTracking cfg s c.nonce c.timestamp c.command_hash := by
        simp [rdStep, check_command, hb']
      have hcnt : rdAcceptedCount cfg s (c :: rest) =
          1 + rdAcceptedCount cfg (rdStep cfg s c) rest := by
        simp [rdAcceptedCount, check_command, hb']
      rw [hcnt] at hb
      obtain ⟨hqnd, hsnd, hmem, hlen⟩ := hwf
      have hwf' : RDWF cfg (rdStep cfg s c) := rdWF_step cfg hN ⟨hqnd, hsnd, hmem, hlen⟩ c
      have hqueue' : (rdStep cfg s c).nonce_queue =
          if cfg.nonce_window_size ≤ s.nonce_queue.length then s.nonce_queue.tail ++ [c.nonce]
          else s.nonce_queue ++ [c.nonce] := by
        rw [hs]; exact rdUpdate_queue cfg s _ _ _ hlen hN
      by_cases hfull : cfg.nonce_window_size ≤ s.nonce_queue.length
      · cases l1 with
        | nil =>
          exfalso
          have hlq : s.nonce_queue.length = l2.length + 1 := by rw [hq]; simp
          rw [hlq] at hfull
          omega
        | cons a l1t =>
          rw [hrun]
          apply ih (rdStep cfg s c) n l1t (l2 ++ [c.nonce]) hwf'
          · rw [hqueue', if_pos hfull, hq]
            simp
          · simp only [List.length_append, List.length_singleton]
            omega
      · rw [hrun]
        apply ih (rdStep cfg s c) n l1 (l2 ++ [c.nonce]) hwf'
        · rw [hqueue', if_neg hfull, hq]
          simp
        · simp only [List.length_append, List.length_singleton]
          omega

/-- C5 (amended): once a nonce has been accepted, every later call presenting
the same nonce is reported as a replay as long as fewer than
`nonce_window_size` commands have been accepted in between; beyond that the
FIFO window may have evicted the nonce and can accept it again. -/
theorem C5_accepted_nonce_replay_amended (cfg : RDConfig)
    (hN : 1 ≤ cfg.nonce_window_size) (s : RDState) (hwf : RDWF cfg s) (c : RDCall)
    (hclean : (check_command cfg s c.now c.nonce c.timestamp c.command_hash).1.is_replay = false)
    (calls : List RDCall)
    (hbound : rdAcceptedCount cfg (rdStep cfg s c) calls + 1 ≤ cfg.nonce_window_size)
    (now ts : ℚ) (h : Option Nat) :
    (check_command cfg (rdRun cfg (rdStep cfg s c) calls) now c.nonce ts h).1.is_replay = true ∧
    (check_command cfg (rdRun cfg (rdStep cfg s c) calls) now c.nonce ts h).1.confidence = 1 := by
  have hb' : (rdAggregateDetection (rdCheckNonce s c.nonce)
      (rdCheckTimestamp cfg s c.now c.timestamp)
      (rdCheckSequence s c.command_hash c.timestamp)).1 = false := hclean
  have hs : rdStep cfg s c = rdUpdateTracking cfg s c.nonce c.timestamp c.command_hash := by
    simp [rdStep, check_command, hb']
  have hwf1 : RDWF cfg (rdStep cfg s c) := rdWF_step cfg hN hwf c
  have hqueue1 : (rdStep cfg s c).nonce_queue =
      if cfg.nonce_window_size ≤ s.nonce_queue.length then s.nonce_queue.tail ++ [c.nonce]
      else s.nonce_queue ++ [c.nonce] := by
    rw [hs]; exact rdUpdate_queue cfg s _ _ _ hwf.2.2.2 hN
  have hdec : ∃ l1, (rdStep cfg s c).nonce_queue = l1 ++ c.nonce :: [] := by
    rw [hqueue1]
    split_ifs
    · exact ⟨s.nonce_queue.tail, rfl⟩
    · exact ⟨s.nonce_queue, rfl⟩
  obtain ⟨l1, hq1⟩ := hdec
  obtain ⟨l1', l2', hqF⟩ := rd_nonce_survives cfg hN calls (rdStep cfg s c) c.nonce l1 []
    hwf1 hq1 (by simp only [List.length_nil]; omega)
  have hwfF := rdWF_run cfg hN calls _ hwf1
  have hmemF : c.nonce ∈ (rdRun cfg (rdStep cfg s c) calls).seen_nonces := by
    apply (hwfF.2.2.1 c.nonce).mpr
    rw [hqF]
    simp
  exact rd_seen_nonce_flags_replay hmemF now ts h

/-- Witness for the amended C5: window capacity 2, nonce 1 accepted, one
intervening accepted command (1 + 1 ≤ 2), and the re-presented nonce 1 is
reported as a replay with confidence 1. -/
theorem C5_accepted_nonce_replay_amended_witness :
    (check_command rdCfgSmall
      (rdRun rdCfgSmall
        (rdStep rdCfgSmall initialRDState
          { now := 10, nonce := 1, timestamp := 10, command_hash := none })
        [{ now := 11, nonce := 2, timestamp := 11, command_hash := none }])
      13 1 13 none).1.is_replay = true ∧
    (check_command rdCfgSmall
      (rdRun rdCfgSmall
        (rdStep rdCfgSmall initialRDState
          { now := 10, nonce := 1, timestamp := 10, command_hash := none })
        [{ now := 11, nonce := 2, timestamp := 11, command_hash := none }])
      13 1 13 none).1.confidence = 1 := by
  have hstepA : rdStep rdCfgSmall initialRDState
      { now := 10, nonce := 1, timestamp := 10, command_hash := none } = c5StateA := rfl
  apply C5_accepted_nonce_replay_amended rdCfgSmall (by norm_num [rdCfgSmall])
    initialRDState
    ⟨List.nodup_nil, List.nodup_nil, fun x => Iff.rfl, by simp [initialRDState, rdCfgSmall]⟩
    { now := 10, nonce := 1, timestamp := 10, command_hash := none }
    ?hclean
    [{ now := 11, nonce := 2, timestamp := 11, command_hash := none }]
    ?hbound 13 13 none
  case hclean =>
    simp only [check_command, rdCheckNonce, rdCheckTimestamp, rdCheckSequence,
      rdAggregateDetection, initialRDState, rdCfgSmall]
    norm_num
  case hbound =>
    rw [hstepA, c5StateA_eq]
    simp only [rdAcceptedCount, check_command, rdCheckNonce, rdCheckTimestamp,
      rdCheckSequence, rdAggregateDetection, rdStep, rdCfgSmall]
    norm_num

/-- C9 counterexample: starting from one active session key, `revoke` records
its state as revoked, but a subsequent `rotate` unconditionally moves that
same key's recorded state from revoked to grace — contradicting the claim
that no operation ever moves a key out of the revoked state. -/
theorem C9_revoked_to_grace_counterexample :
    recordedState (kmRevoke km0) 0 = some KMKeyState.revoked ∧
    recordedState (kmRotate 1 "session-1" (kmRevoke km0)) 0 = some KMKeyState.grace := by
  constructor
  · rfl
  · rfl

theorem getElem?_some_lt {α : Type} {l : List α} {k : Nat} {a : α}
    (h : l[k]? = some a) : k < l.length := by
  by_contra hk
  rw [List.getElem?_eq_none (le_of_not_lt hk)] at h
  exact Option.noConfusion h

theorem kmRecords_rotate (now : ℚ) (sid : String) (st : KMState) (c : SessionMeta)
    (hcur : st.current = some c) :
    kmRecords (kmRotate now sid st) =
      (st.history ++ [{ c with state := KMKeyState.grace, expires_at := now + GRACE_PERIOD }]) ++
        [{ freshSessionMeta now sid with last_rotation := now }] := by
  simp [kmRecords, kmRotate, kmDerive, hcur]

theorem kmRecords_rotate_none (now : ℚ) (sid : String) (st : KMState)
    (hcur : st.current = none) :
    kmRecords (kmRotate now sid st) =
      st.history ++ [{ freshSessionMeta now sid with last_rotation := now }] := by
  simp [kmRecords, kmRotate, kmDerive, hcur]

theorem kmRecords_derive (now : ℚ) (sid : String) (st : KMState) :
    kmRecords (kmDerive now sid st) = kmRecords st ++ [freshSessionMeta now sid] := by
  cases hcur : st.current <;> simp [kmRecords, kmDerive, hcur]

theorem kmRecords_mapCurrent (f : SessionMeta → SessionMeta) (st : KMState)
    (c : SessionMeta) (hcur : st.current = some c) :
    kmRecords { st with current := st.current.map f } = st.history ++ [f c] := by
  simp [kmRecords, hcur]

/-- C9 (amended): rotation moves the current key's recorded state to grace —
whatever state it was in, including revoked — and installs a fresh key whose
metadata starts active; revocation moves the current key to revoked; and no
operation of the key manager ever moves any key's recorded state from grace,
expired, or revoked back to active. -/
theorem C9_key_state_transitions_amended :
    (∀ (now : ℚ) (sid : String) (st : KMState) (c : SessionMeta), st.current = some c →
      (kmRotate now sid st).history.getLast? =
        some { c with state := KMKeyState.grace, expires_at := now + GRACE_PERIOD } ∧
      (kmRotate now sid st).current.map (fun m => m.state) = some KMKeyState.active) ∧
    (∀ (st : KMState) (c : SessionMeta), st.current = some c →
      (kmRevoke st).current = some { c with state := KMKeyState.revoked }) ∧
    (∀ (op : KMOp) (st : KMState) (k : Nat) (m m' : SessionMeta),
      (kmRecords st)[k]? = some m → (kmRecords (kmStep op st))[k]? = some m' →
      m'.state = KMKeyState.active → m.state = KMKeyState.active) := by
  refine ⟨?_, ?_, ?_⟩
  · intro now sid st c hcur
    constructor
    · simp [kmRotate, kmDerive, hcur, List.getLast?_concat]
    · simp [kmRotate, kmDerive, hcur, freshSessionMeta]
  · intro st c hcur
    simp [kmRevoke, hcur]
  · intro op st k m m' h1 h2 ha
    have hk1 : k < (kmRecords st).length := getElem?_some_lt h1
    cases op with
    | derive now sid =>
      rw [kmStep, kmRecords_derive, List.getElem?_append_left hk1, h1] at h2
      cases h2
      exact ha
    | rotate now sid =>
      cases hcur : st.current with
      | none =>
        have hrec0 : kmRecords st = st.history := by simp [kmRecords, hcur]
        rw [hrec0] at h1 hk1
        rw [kmStep, kmRecords_rotate_none now sid st hcur,
          List.getElem?_append_left hk1, h1] at h2
        cases h2
        exact ha
      | some c =>
        have hrec0 : kmRecords st = st.history ++ [c] := by simp [kmRecords, hcur]
        rw [hrec0] at h1 hk1
        rw [kmStep, kmRecords_rotate now sid st c hcur] at h2
        by_cases hk : k < st.history.length
        · rw [List.getElem?_append_left hk] at h1
          rw [List.getElem?_append_left (by simp; omega),
            List.getElem?_append_left hk, h1] at h2
          cases h2
          exact ha
        · have hkeq : k = st.history.length := by simp at hk1; omega
          subst hkeq
          rw [List.getElem?_concat_length] at h1
          rw [List.getElem?_append_left (by simp), List.getElem?_concat_length] at h2
          cases h1
          cases h2
          exact absurd ha (by simp)
    | revoke =>
      cases hcur : st.current with
      | none =>
        have hrec' : kmRecords (kmStep KMOp.revoke st) = kmRecords st := by
          simp [kmStep, kmRevoke, kmRecords, hcur]
        rw [hrec', h1] at h2
        cases h2
        exact ha
      | some c =>
        have hrec0 : kmRecords st = st.history ++ [c] := by simp [kmRecords, hcur]
        rw [hrec0] at h1 hk1
        rw [kmStep, kmRevoke,
          kmRecords_mapCurrent (fun mm => { mm with state := KMKeyState.revoked }) st c hcur] at h2
        by_cases hk : k < st.history.length
        · rw [List.getElem?_append_left hk] at h1 h2
          rw [h1] at h2
          cases h2
          exact ha
        · have hkeq : k = st.history.length := by simp at hk1; omega
          subst hkeq
          rw [List.getElem?_concat_length] at h1 h2
          cases h1
          cases h2
          exact absurd ha (by simp)
    | updateRisk lvl =>
      cases hcur : st.current with
      | none =>
        have hrec' : kmRecords (kmStep (KMOp.updateRisk lvl) st) = kmRecords st := by
          simp [kmStep, kmUpdateRisk, kmRecords, hcur]
        rw [hrec', h1] at h2
        cases h2
        exact ha
      | some c =>
        have hrec0 : kmRecords st = st.history ++ [c] := by simp [kmRecords, hcur]
        rw [hrec0] at h1 hk1
        rw [kmStep, kmUpdateRisk,
          kmRecords_mapCurrent (fun mm => { mm with risk_level := lvl }) st c hcur] at h2
        by_cases hk : k < st.history.length
        · rw [List.getElem?_append_left hk] at h1 h2
          rw [h1] at h2
          cases h2
          exact ha
        · have hkeq : k = st.history.length := by simp at hk1; omega
          subst hkeq
          rw [List.getElem?_concat_length] at h1 h2
          cases h1
          cases h2
          exact ha
    | incrementCounter =>
      cases hcur : st.current with
      | none =>
        have hrec' : kmRecords (kmStep KMOp.incrementCounter st) = kmRecords st := by
          simp [kmStep, kmIncrement, kmRecords, hcur]
        rw [hrec', h1] at h2
        cases h2
        exact ha
      | some c =>
        have hrec0 : kmRecords st = st.history ++ [c] := by simp [kmRecords, hcur]
        rw [hrec0] at h1 hk1
        rw [kmStep, kmIncrement,
          kmRecords_mapCurrent (fun mm => { mm with command_count := mm.command_count + 1 }) st c hcur] at h2
        by_cases hk : k < st.history.length
        · rw [List.getElem?_append_left hk] at h1 h2
          rw [h1] at h2
          cases h2
          exact ha
        · have hkeq : k = st.history.length := by simp at hk1; omega
          subst hkeq
          rw [List.getElem?_concat_length] at h1 h2
          cases h1
          cases h2
          exact ha

/-- Witness for the amended C9: on `km0` (one active key), rotation grace-marks
the old key and installs an active one, and revocation marks it revoked. -/
theorem C9_key_state_transitions_amended_witness :
    (kmRotate 1 "session-1" km0).history.getLast? =
      some { freshSessionMeta 0 "session-0" with state := KMKeyState.grace, expires_at := 1 + GRACE_PERIOD } ∧
    (kmRevoke km0).current =
      some { freshSessionMeta 0 "session-0" with state := KMKeyState.revoked } := by
  constructor
  · exact (C9_key_state_transitions_amended.1 1 "session-1" km0
      (freshSessionMeta 0 "session-0") rfl).1
  · exact C9_key_state_transitions_amended.2.1 km0 (freshSessionMeta 0 "session-0") rfl
